import Mathlib

/-!
Verification of the sentence-pair sampling and pretraining-instance pipeline of
`pretrain.py` (classes `SentPairDataLoader` and `Preprocess4Pretrain`).

The Python code is shallowly embedded: the corpus is a `List String`, the
tokenizer and indexer are explicit function parameters, and every random draw
of the original program (`random.random`, `random.randint`, `random.shuffle`,
`utils.get_random_word`) is injected explicitly, so that each definition is a
pure, executable function of its inputs and its draws.
-/

set_option maxHeartbeats 1000000

namespace PytorchicBert

/-- Python `random.randint a b`: a uniform draw on the inclusive range
`[a, b]`.  The draw is injected as an arbitrary natural number and reduced
modulo the size of the inclusive range, so the set of reachable results is
exactly `{a, ..., b}` (for `a ≤ b`). -/
def randint (a b : ℕ) (draw : ℕ) : ℕ :=
  a + draw % (b + 1 - a)

/-- Python 3 `round` (banker's rounding, half to even), applied to the exact
rational value of the argument.  `pretrain.py` line 116 computes
`int(round(len(tokens) * self.mask_prob))`. -/
def pyRound (q : ℚ) : ℤ :=
  if q - (⌊q⌋ : ℚ) < 1/2 then ⌊q⌋
  else if (1/2 : ℚ) < q - (⌊q⌋ : ℚ) then ⌊q⌋ + 1
  else if ⌊q⌋ % 2 = 0 then ⌊q⌋ else ⌊q⌋ + 1

/-- Python `str.strip()`: remove leading and trailing whitespace.  A line is
a document delimiter exactly when its stripped form is empty (line 42).
Implemented directly on the character list so that it evaluates inside
`decide` (Lean's built-in `String.trim`, though equivalent on these inputs,
is defined by well-founded recursion on byte positions and does not
kernel-reduce). -/
def pyStrip (s : String) : String :=
  ⟨((s.data.dropWhile Char.isWhitespace).reverse.dropWhile Char.isWhitespace).reverse⟩

/-- The 7-tuple returned by `Preprocess4Pretrain.__call__` (line 148):
`(input_ids, segment_ids, input_mask, masked_ids, masked_pos, masked_weights,
is_next)`. -/
structure Transformed where
  input_ids : List ℤ
  segment_ids : List ℕ
  input_mask : List ℕ
  masked_ids : List ℤ
  masked_pos : List ℕ
  masked_weights : List ℕ
  is_next : Bool
deriving DecidableEq

/-- A value flowing through the (dynamically typed) pipeline of
`SentPairDataLoader`: the raw `(is_next, tokens_a, tokens_b)` triple built at
line 72, or the transformed 7-tuple produced by a preprocessing stage. -/
inductive Instance where
  | raw (is_next : Bool) (tokens_a tokens_b : List String) : Instance
  | transformed (t : Transformed) : Instance
deriving DecidableEq

/-- State of `SentPairDataLoader` as set up by `__init__` (lines 24-32). -/
structure SentPairDataLoader where
  sentences : List String
  tot_sentences : ℕ
  tokenize : String → List String
  max_len : ℕ
  short_sampling_prob : ℚ
  pipeline : List (Instance → Instance)
  batch_size : ℕ

/-- `SentPairDataLoader.__init__` (lines 24-32): stores every argument and
computes `tot_sentences = len(sentences)`.  It performs no validation. -/
def SentPairDataLoader.init (sentences : List String) (batch_size : ℕ)
    (tokenize : String → List String) (max_len : ℕ)
    (short_sampling_prob : ℚ) (pipeline : List (Instance → Instance)) :
    SentPairDataLoader :=
  { sentences := sentences
    tot_sentences := sentences.length
    tokenize := tokenize
    max_len := max_len
    short_sampling_prob := short_sampling_prob
    pipeline := pipeline
    batch_size := batch_size }

/-- The loop of `read_tokens` (lines 36-49).  The loop walks `idx` upward and
performs at most `tot - idx` iterations, because it returns `None` as soon as
`idx >= tot` (line 38-39); `fuel` is an upper bound on that count, added only
to make the recursion structural.  With `tot - idx ≤ fuel` the `fuel = 0`
branch can only be reached with `tot ≤ idx`, where the source also stops,
so the function then agrees with the source loop exactly.
Per iteration: if enough tokens are accumulated, return them; if the corpus
is exhausted, return the `None` sentinel; if the line is blank (a document
delimiter), either restart the accumulation (`non_empty = true`) or return
what was accumulated (`non_empty = false`); otherwise tokenize the stripped
line and extend the accumulator. -/
def readTokensGo (s : List String) (tok : String → List String)
    (tot length : ℕ) (non_empty : Bool) :
    ℕ → ℕ → List String → Option (List String)
  | 0, _idx, acc =>
    if length ≤ acc.length then some acc else none
  | fuel + 1, idx, acc =>
    if length ≤ acc.length then some acc
    else if tot ≤ idx then none
    else
      if pyStrip (s.getD idx "") = "" then
        if non_empty then readTokensGo s tok tot length non_empty fuel (idx + 1) []
        else some acc
      else
        readTokensGo s tok tot length non_empty fuel (idx + 1)
          (acc ++ tok (pyStrip (s.getD idx "")))

/-- `SentPairDataLoader.read_tokens` (lines 34-49). -/
def SentPairDataLoader.read_tokens (L : SentPairDataLoader)
    (idx length : ℕ) (non_empty : Bool) : Option (List String) :=
  readTokensGo L.sentences L.tokenize L.tot_sentences length non_empty
    L.tot_sentences idx []

/-- Same loop as `readTokensGo`, additionally returning the value of the local
variable `idx` at the moment of return, i.e. the index one past the last line
consumed.  Used to talk about the extent of a read's "read region". -/
def readTokensGoIdx (s : List String) (tok : String → List String)
    (tot length : ℕ) (non_empty : Bool) :
    ℕ → ℕ → List String → Option (List String × ℕ)
  | 0, idx, acc =>
    if length ≤ acc.length then some (acc, idx) else none
  | fuel + 1, idx, acc =>
    if length ≤ acc.length then some (acc, idx)
    else if tot ≤ idx then none
    else
      if pyStrip (s.getD idx "") = "" then
        if non_empty then readTokensGoIdx s tok tot length non_empty fuel (idx + 1) []
        else some (acc, idx + 1)
      else
        readTokensGoIdx s tok tot length non_empty fuel (idx + 1)
          (acc ++ tok (pyStrip (s.getD idx "")))

/-- `read_tokens` together with the final value of its local `idx`. -/
def SentPairDataLoader.read_tokens_final_idx (L : SentPairDataLoader)
    (idx length : ℕ) (non_empty : Bool) : Option (List String × ℕ) :=
  readTokensGoIdx L.sentences L.tokenize L.tot_sentences length non_empty
    L.tot_sentences idx []

/-- The random draws consumed by one slot of `__iter__` (lines 58-65):
`short_draw` is the `rand()` compared with `short_sampling_prob`; `len_draw`
is the draw behind `randint(1, int(max_len / 2))`; `next_draw` is the `rand()`
deciding `is_next`; `idx_draw` is the draw behind `randint(0, tot_sentences)`. -/
structure SlotRand where
  short_draw : ℚ
  len_draw : ℕ
  next_draw : ℚ
  idx_draw : ℕ

/-- Lines 58-60: the sampled target token count `len_tokens`. -/
def slotLen (L : SentPairDataLoader) (r : SlotRand) : ℕ :=
  if r.short_draw < L.short_sampling_prob then randint 1 (L.max_len / 2) r.len_draw
  else L.max_len / 2

/-- Line 65: `next_idx = now + 1 if is_next else randint(0, self.tot_sentences)`. -/
def slotNextIdx (L : SentPairDataLoader) (r : SlotRand) (now : ℕ)
    (is_next : Bool) : ℕ :=
  if is_next then now + 1 else randint 0 L.tot_sentences r.idx_draw

/-- Lines 73-74: fold the instance through the pipeline stages in order. -/
def applyPipeline : List (Instance → Instance) → Instance → Instance
  | [], x => x
  | p :: ps, x => applyPipeline ps (p x)

/-- One slot of the sampler loop (lines 56-76), at cursor position `now`
(the cursor advances by exactly one per slot, so the slot executed with
cursor value `now` is the `now`-th slot overall).  Returns `none` exactly
when `tokens_a` or `tokens_b` is the exhausted sentinel (line 69), in which
case `__iter__` returns, ending the stream. -/
def slot (L : SentPairDataLoader) (r : SlotRand) (now : ℕ) : Option Instance :=
  let len_tokens := slotLen L r
  let is_next := decide (r.next_draw < 1/2)
  match L.read_tokens now len_tokens true,
      L.read_tokens (slotNextIdx L r now is_next) len_tokens false with
  | some ta, some tb =>
      some (applyPipeline L.pipeline (Instance.raw is_next ta tb))
  | _, _ => none

/-- The inner `for i in range(batch_size)` loop of `__iter__` (lines 55-76):
runs `n` slots starting at cursor `now` (slot `k` consumes the draws
`rands k`), returning the collected instances, or `none` as soon as any slot
hits the exhausted sentinel (in which case the partially built batch is
discarded and the stream ends). -/
def fillBatch (L : SentPairDataLoader) (rands : ℕ → SlotRand) :
    ℕ → ℕ → Option (List Instance)
  | _now, 0 => some []
  | now, n + 1 =>
    match slot L (rands now) now with
    | none => none
    | some inst => (fillBatch L rands (now + 1) n).map (fun b => inst :: b)

/-- The outer `while True` loop of `__iter__` (lines 53-80): the list of
batches yielded, starting at cursor `now`, bounded by `fuel` iterations of
the outer loop (the stream is finite for every run that terminates, and every
theorem below holds for all `fuel`).  A batch is yielded only when all of its
`batch_size` slots succeed; the first failing slot ends the whole stream.
The `torch.tensor` transposition of line 79 is shape bookkeeping on the
yielded batch and is not modelled. -/
def runBatches (L : SentPairDataLoader) (rands : ℕ → SlotRand) :
    ℕ → ℕ → List (List Instance)
  | _now, 0 => []
  | now, fuel + 1 =>
    match fillBatch L rands now L.batch_size with
    | none => []
    | some b => b :: runBatches L rands (now + L.batch_size) fuel

/-- Modelled from the spec: `truncate_tokens_pair` is imported from `utils`,
which is not among the provided sources.  Spec section 4.3 step 1: "each
truncation step removes one token from whichever of the two spans is
currently longer; if equal length, remove from a fixed preferred span
(consistently chosen, e.g. the second span)", until
`len(a) + len(b) ≤ max_len`.  The loop removes one token per step, so
`fuel = len(a) + len(b)` steps always suffice; `fuel` only makes the
recursion structural. -/
def truncateGo : ℕ → List String × List String → ℕ → List String × List String
  | 0, ab, _ => ab
  | fuel + 1, (a, b), maxLen =>
    if a.length + b.length ≤ maxLen then (a, b)
    else if b.length < a.length then truncateGo fuel (a.dropLast, b) maxLen
    else truncateGo fuel (a, b.dropLast) maxLen

/-- Modelled from the spec (see `truncateGo`): joint truncation of a span
pair to a total token budget. -/
def truncate_tokens_pair (a b : List String) (maxLen : ℕ) :
    List String × List String :=
  truncateGo (a.length + b.length) (a, b) maxLen

/-- Modelled from the spec: `get_random_word` is imported from `utils`, which
is not among the provided sources.  Spec sections 3 and 4.3: "a token drawn
uniformly from the masking vocabulary"; the uniform draw over the list's
index range is injected like every other draw. -/
def get_random_word (vocab_words : List String) (draw : ℕ) : String :=
  vocab_words.getD (randint 0 (vocab_words.length - 1) draw) ""

/-- The random draws consumed by one `Preprocess4Pretrain.__call__`:
`shuffle` models `random.shuffle(cand_pos)` (line 120; the theorems below
assume the result is a permutation of its input); `draws i` are the draws of
the `i`-th iteration of the masking loop: the `rand()` compared with `0.8`,
the `rand()` compared with `0.5`, and the vocabulary draw of
`get_random_word`. -/
structure MaskRand where
  shuffle : List ℕ → List ℕ
  draws : ℕ → ℚ × ℚ × ℕ

/-- The replacement decision of lines 124-127, as a value: the token written
at a masked position, as a function of the position's draws and its original
token. -/
def maskOutcome (vocab : List String) (d : ℚ × ℚ × ℕ) (orig : String) : String :=
  if d.1 < 8/10 then "[MASK]"
  else if d.2.1 < 1/2 then get_random_word vocab d.2.2
  else orig

/-- One iteration body of the masking loop (lines 124-127): overwrite
position `pos` with `[MASK]` (80%), with a random vocabulary word (10%), or
leave the list unchanged (10%). -/
def maskStep (vocab : List String) (d : ℚ × ℚ × ℕ) (tokens : List String)
    (pos : ℕ) : List String :=
  if d.1 < 8/10 then tokens.set pos "[MASK]"
  else if d.2.1 < 1/2 then tokens.set pos (get_random_word vocab d.2.2)
  else tokens

/-- The masking loop `for pos in cand_pos[:n_pred]` (lines 121-127), at
iteration counter `i`: returns the final `tokens` list together with
`masked_tokens` and `masked_pos` in append order.  At each position the
original token and the position are recorded before the overwrite. -/
def maskLoop (vocab : List String) (draws : ℕ → ℚ × ℚ × ℕ) :
    List ℕ → ℕ → List String → List String × List String × List ℕ
  | [], _, tokens => (tokens, [], [])
  | pos :: rest, i, tokens =>
    let orig := tokens.getD pos ""
    let tokens2 := maskStep vocab (draws i) tokens pos
    let r := maskLoop vocab draws rest (i + 1) tokens2
    (r.1, orig :: r.2.1, pos :: r.2.2)

/-- State of `Preprocess4Pretrain` as set up by `__init__` (lines 94-100).
The `indexer` (the tokenizer's `convert_tokens_to_ids`) maps tokens to ids
elementwise. -/
structure Preprocess4Pretrain where
  max_pred : ℕ
  mask_prob : ℚ
  vocab_words : List String
  indexer : String → ℤ
  max_len : ℕ

/-- `Preprocess4Pretrain.__init__` (lines 94-100): stores every argument.
It performs no validation. -/
def Preprocess4Pretrain.init (max_pred : ℕ) (mask_prob : ℚ)
    (vocab_words : List String) (indexer : String → ℤ) (max_len : ℕ) :
    Preprocess4Pretrain :=
  { max_pred := max_pred
    mask_prob := mask_prob
    vocab_words := vocab_words
    indexer := indexer
    max_len := max_len }

/-- Line 106: the truncated span pair, with budget `max_len - 3` (reserving
`[CLS]`, `[SEP]`, `[SEP]`). -/
def truncPair (p : Preprocess4Pretrain) (ta tb : List String) :
    List String × List String :=
  truncate_tokens_pair ta tb (p.max_len - 3)

/-- Line 109: `tokens = ['[CLS]'] + tokens_a + ['[SEP]'] + tokens_b + ['[SEP]']`
(with `tokens_a`, `tokens_b` already truncated in place by line 106). -/
def assembled (p : Preprocess4Pretrain) (ta tb : List String) : List String :=
  ["[CLS]"] ++ (truncPair p ta tb).1 ++ ["[SEP]"] ++ (truncPair p ta tb).2 ++ ["[SEP]"]

/-- Lines 118-119: candidate masked positions, every position whose token is
neither `'[CLS]'` nor `'[SEP]'`. -/
def candPos (tokens : List String) : List ℕ :=
  (tokens.enum.filter (fun it => it.2 != "[CLS]" && it.2 != "[SEP]")).map Prod.fst

/-- Line 116: `n_pred = min(max_pred, max(1, int(round(len(tokens)*mask_prob))))`. -/
def Preprocess4Pretrain.nPred (p : Preprocess4Pretrain) (tokens : List String) : ℕ :=
  min p.max_pred (max 1 (pyRound ((tokens.length : ℚ) * p.mask_prob)).toNat)

/-- `Preprocess4Pretrain.__call__` (lines 102-148) on the raw
`(is_next, tokens_a, tokens_b)` triple. -/
def Preprocess4Pretrain.call (p : Preprocess4Pretrain) (rnd : MaskRand)
    (inst : Bool × List String × List String) : Transformed :=
  let tokens_a := (truncPair p inst.2.1 inst.2.2).1
  let tokens_b := (truncPair p inst.2.1 inst.2.2).2
  let tokens := assembled p inst.2.1 inst.2.2
  let segment_ids : List ℕ :=
    List.replicate (tokens_a.length + 2) 0 ++ List.replicate (tokens_b.length + 1) 1
  let input_mask : List ℕ := List.replicate tokens.length 1
  let np := p.nPred tokens
  let res := maskLoop p.vocab_words rnd.draws ((rnd.shuffle (candPos tokens)).take np) 0 tokens
  let masked_weights : List ℕ := List.replicate res.2.1.length 1
  let input_ids : List ℤ := res.1.map p.indexer
  let masked_ids : List ℤ := res.2.1.map p.indexer
  let n_pad := p.max_len - input_ids.length
  let pad2 := if np < p.max_pred then p.max_pred - np else 0
  { input_ids := input_ids ++ List.replicate n_pad 0
    segment_ids := segment_ids ++ List.replicate n_pad 0
    input_mask := input_mask ++ List.replicate n_pad 0
    masked_ids := masked_ids ++ List.replicate pad2 0
    masked_pos := res.2.2 ++ List.replicate pad2 0
    masked_weights := masked_weights ++ List.replicate pad2 0
    is_next := inst.1 }

/-- The tokens contributed by corpus line `i` (the tokenization of the
stripped line), out-of-range indices reading as the empty (blank) line, as
in `readTokensGo`. -/
def lineTokens (s : List String) (tok : String → List String) (i : ℕ) :
    List String :=
  tok (pyStrip (s.getD i ""))

/-- The concatenated tokens of the whole lines `lo, lo+1, ..., hi-1`. -/
def segTokens (s : List String) (tok : String → List String) (lo hi : ℕ) :
    List String :=
  ((List.range' lo (hi - lo)).map (lineTokens s tok)).flatten

/-! Concrete corpora, tokenizers and draw streams used to exercise the
theorems below on explicit inputs. -/

/-- A tokenizer mapping each stripped line to a single token. -/
def idTok : String → List String := fun s => [s]

/-- A tokenizer mapping a stripped line of length `n` to `n` copies of
itself, so one line can contribute several tokens. -/
def dupTok : String → List String := fun s => List.replicate s.length s

/-- A 3-line, blank-free corpus. -/
def exLoaderA : SentPairDataLoader :=
  SentPairDataLoader.init ["x", "y", "z"] 1 idTok 4 0 []

/-- A corpus whose middle line is a blank document delimiter. -/
def exLoaderBlank : SentPairDataLoader :=
  SentPairDataLoader.init ["x", "", "z"] 1 idTok 4 0 []

/-- A corpus whose second line contributes two tokens, so a read of target
length 2 starting at line 0 consumes two lines. -/
def exLoaderMulti : SentPairDataLoader :=
  SentPairDataLoader.init ["x", "yy", "z"] 1 dupTok 4 0 []

/-- A one-line corpus whose single line contributes two tokens. -/
def exLoaderOne : SentPairDataLoader :=
  SentPairDataLoader.init ["yy"] 1 dupTok 4 0 []

/-- Slot draws: long length, `is_next = false`, random-index draw 0. -/
def exRandA : SlotRand :=
  { short_draw := 1, len_draw := 0, next_draw := 1, idx_draw := 0 }

/-- Slot draws: long length, `is_next = false`, random-index draw 3 (so
`randint(0, 3)` yields 3, the inclusive upper end). -/
def exRandHit : SlotRand :=
  { short_draw := 1, len_draw := 0, next_draw := 1, idx_draw := 3 }

/-- Slot draws: long length, `is_next = true`. -/
def exRandNext : SlotRand :=
  { short_draw := 1, len_draw := 0, next_draw := 0, idx_draw := 0 }

/-- An indexer sending every token to id 0. -/
def exIndexer : String → ℤ := fun _ => 0

/-- Masking draws with identity shuffle whose per-position outcome is always
the "keep" branch (first draw not below 0.8, second not below 0.5). -/
def exMaskRandKeep : MaskRand := { shuffle := id, draws := fun _ => (1, 1, 0) }

/-- `max_pred = 4`, `mask_prob = 1`, `max_len = 8`. -/
def exPre1 : Preprocess4Pretrain := Preprocess4Pretrain.init 4 1 [] exIndexer 8

/-- `max_pred = 5`, `mask_prob = 1`, `max_len = 8`. -/
def exPre6 : Preprocess4Pretrain := Preprocess4Pretrain.init 5 1 [] exIndexer 8

/-- `max_pred = 2`, `mask_prob = 0.15`, `max_len = 8`. -/
def exPreW : Preprocess4Pretrain :=
  Preprocess4Pretrain.init 2 (15/100) [] exIndexer 8

/-- A one-word masking vocabulary. -/
def exVocab : List String := ["w"]

/-- Masking-loop draws: position 0 takes the `[MASK]` branch, all later
positions take the "keep" branch. -/
def exDraws : ℕ → ℚ × ℚ × ℕ := fun k => if k = 0 then (0, 0, 0) else (9/10, 3/4, 0)

/-- A four-token assembled sequence with two maskable positions. -/
def exTokens : List String := ["[CLS]", "a", "b", "[SEP]"]

/-- The constant per-slot draw stream repeating `exRandA`. -/
def exRandsA : ℕ → SlotRand := fun _ => exRandA

/-- The constant per-slot draw stream repeating `exRandHit`. -/
def exRandsHit : ℕ → SlotRand := fun _ => exRandHit

/-! ### Generic list helpers -/

lemma getD_set_self {α : Type} (l : List α) (i : ℕ) (a d : α)
    (h : i < l.length) : (l.set i a).getD i d = a := by
  rw [List.getD_eq_getElem?_getD, List.getElem?_set_self h, Option.getD_some]

lemma getD_set_ne {α : Type} (l : List α) {i j : ℕ} (a d : α) (h : i ≠ j) :
    (l.set i a).getD j d = l.getD j d := by
  rw [List.getD_eq_getElem?_getD, List.getElem?_set_ne h,
    ← List.getD_eq_getElem?_getD]

/-! ### Line segments -/

lemma segTokens_self (s : List String) (tok : String → List String) (lo : ℕ) :
    segTokens s tok lo lo = [] := by
  simp [segTokens]

lemma segTokens_snoc (s : List String) (tok : String → List String)
    {lo hi : ℕ} (h : lo ≤ hi) :
    segTokens s tok lo (hi + 1) = segTokens s tok lo hi ++ lineTokens s tok hi := by
  have h1 : hi + 1 - lo = (hi - lo) + 1 := by omega
  have h2 : lo + 1 * (hi - lo) = hi := by omega
  rw [segTokens, h1, List.range'_concat, h2, List.map_append,
    List.flatten_append, segTokens]
  simp

lemma segTokens_cons (s : List String) (tok : String → List String)
    {lo hi : ℕ} (h : lo < hi) :
    segTokens s tok lo hi = lineTokens s tok lo ++ segTokens s tok (lo + 1) hi := by
  have h1 : hi - lo = (hi - (lo + 1)) + 1 := by omega
  rw [segTokens, h1, List.range'_succ, List.map_cons, List.flatten_cons, segTokens]

/-! ### The document-aware token reader -/

/-- Loop invariant of `read_tokens` in `non_empty = true` mode: whatever the
accumulator currently holds is the full tokenization of a contiguous run of
non-blank lines, and every successful return extends such a run.  This is the
common core behind the document-boundary and minimum-length properties. -/
lemma readTokensGo_true_spec (s : List String) (tok : String → List String)
    (tot length : ℕ) :
    ∀ (fuel : ℕ) (idx : ℕ) (acc : List String) (lo : ℕ) (ts : List String),
      tot - idx ≤ fuel → lo ≤ idx →
      (∀ i, lo ≤ i → i < idx → pyStrip (s.getD i "") ≠ "") →
      acc = segTokens s tok lo idx →
      readTokensGo s tok tot length true fuel idx acc = some ts →
      ∃ lo2 hi, lo ≤ lo2 ∧ lo2 ≤ hi ∧
        (∀ i, lo2 ≤ i → i < hi → pyStrip (s.getD i "") ≠ "") ∧
        ts = segTokens s tok lo2 hi ∧ length ≤ ts.length := by
  intro fuel
  induction fuel with
  | zero =>
    intro idx acc lo ts _hfuel hlo hnb hacc hread
    simp only [readTokensGo] at hread
    split at hread
    · obtain rfl : acc = ts := Option.some.inj hread
      exact ⟨lo, idx, le_refl lo, hlo, hnb, hacc, by omega⟩
    · exact absurd hread (by simp)
  | succ fuel ih =>
    intro idx acc lo ts hfuel hlo hnb hacc hread
    simp only [readTokensGo] at hread
    split at hread
    · obtain rfl : acc = ts := Option.some.inj hread
      exact ⟨lo, idx, le_refl lo, hlo, hnb, hacc, by omega⟩
    · split at hread
      · exact absurd hread (by simp)
      · rename_i hlen hidx
        split at hread
        · rename_i hblank
          rw [if_pos trivial] at hread
          obtain ⟨lo2, hi, h1, h2, h3, h4, h5⟩ :=
            ih (idx + 1) [] (idx + 1) ts (by omega) (le_refl _)
              (by intro i hi1 hi2; omega)
              (segTokens_self s tok (idx + 1)).symm hread
          exact ⟨lo2, hi, by omega, h2, h3, h4, h5⟩
        · rename_i hblank
          obtain ⟨lo2, hi, h1, h2, h3, h4, h5⟩ :=
            ih (idx + 1) (acc ++ tok (pyStrip (s.getD idx ""))) lo ts (by omega)
              (by omega)
              (by
                intro i hi1 hi2
                rcases Nat.lt_or_ge i idx with hlt | hge
                · exact hnb i hi1 hlt
                · have : i = idx := by omega
                  subst this; exact hblank)
              (by rw [hacc, segTokens_snoc s tok hlo]; rfl) hread
          exact ⟨lo2, hi, h1, h2, h3, h4, h5⟩

/-- Claim C2: a `read_tokens` call with `non_empty = true` that returns a
token list (not the exhausted sentinel) returns the tokenization of one
contiguous run of non-blank lines starting at or after the requested start
index: no blank (document-delimiter) line lies inside the run, so the result
never mixes tokens of two documents. -/
theorem c2_no_document_mixing (L : SentPairDataLoader) (idx length : ℕ)
    (ts : List String) (h : L.read_tokens idx length true = some ts) :
    ∃ lo hi, idx ≤ lo ∧ lo ≤ hi ∧
      (∀ i, lo ≤ i → i < hi → pyStrip (L.sentences.getD i "") ≠ "") ∧
      ts = segTokens L.sentences L.tokenize lo hi := by
  obtain ⟨lo, hi, h1, h2, h3, h4, _h5⟩ :=
    readTokensGo_true_spec L.sentences L.tokenize L.tot_sentences length
      L.tot_sentences idx [] idx ts (by omega) (le_refl idx)
      (by intro i hi1 hi2; omega) (segTokens_self _ _ idx).symm h
  exact ⟨lo, hi, h1, h2, h3, h4⟩

/-- Witness for C2 on an explicit corpus: reading two tokens from
`["x", "y", "z"]` at index 0 yields `["x", "y"]`, a contiguous non-blank
run. -/
theorem c2_witness :
    ∃ lo hi, 0 ≤ lo ∧ lo ≤ hi ∧
      (∀ i, lo ≤ i → i < hi → pyStrip (exLoaderA.sentences.getD i "") ≠ "") ∧
      ["x", "y"] = segTokens exLoaderA.sentences exLoaderA.tokenize lo hi :=
  c2_no_document_mixing exLoaderA 0 2 ["x", "y"] (by decide)

/-- Claim C10: a `read_tokens` call with `non_empty = true` that returns a
token list returns at least `length` tokens, and the result is the
tokenization of a run of whole lines (each contributing line's tokens are
appended whole), so it may strictly exceed the target length and is never
cut back to it. -/
theorem c10_read_true_at_least_length (L : SentPairDataLoader)
    (idx length : ℕ) (ts : List String)
    (h : L.read_tokens idx length true = some ts) :
    length ≤ ts.length ∧
      ∃ lo hi, idx ≤ lo ∧ lo ≤ hi ∧
        (∀ i, lo ≤ i → i < hi → pyStrip (L.sentences.getD i "") ≠ "") ∧
        ts = segTokens L.sentences L.tokenize lo hi := by
  obtain ⟨lo, hi, h1, h2, h3, h4, h5⟩ :=
    readTokensGo_true_spec L.sentences L.tokenize L.tot_sentences length
      L.tot_sentences idx [] idx ts (by omega) (le_refl idx)
      (by intro i hi1 hi2; omega) (segTokens_self _ _ idx).symm h
  exact ⟨h5, lo, hi, h1, h2, h3, h4⟩

/-- Witness for C10 on an explicit corpus: reading one token from the corpus
`["yy"]` with a tokenizer that yields two tokens for that line returns both
tokens, strictly exceeding the target length. -/
theorem c10_witness :
    (1 ≤ (["yy", "yy"] : List String).length ∧
      ∃ lo hi, 0 ≤ lo ∧ lo ≤ hi ∧
        (∀ i, lo ≤ i → i < hi → pyStrip (exLoaderOne.sentences.getD i "") ≠ "") ∧
        ["yy", "yy"] = segTokens exLoaderOne.sentences exLoaderOne.tokenize lo hi) ∧
    (2 : ℕ) ≠ 1 :=
  ⟨c10_read_true_at_least_length exLoaderOne 0 1 ["yy", "yy"] (by decide),
    by decide⟩

/-- Loop behaviour of `read_tokens` in `non_empty = false` mode when a first
blank line exists at index `j` within bounds: the call returns a list (it
cannot hit the exhausted sentinel), and the result is the accumulator plus
the tokens of the whole lines strictly before some index `m ≤ j`; no line at
or past the blank line is ever tokenized. -/
lemma readTokensGo_false_spec (s : List String) (tok : String → List String)
    (tot length : ℕ) :
    ∀ (fuel idx : ℕ) (acc : List String) (j : ℕ),
      tot - idx ≤ fuel → idx ≤ j → j < tot → pyStrip (s.getD j "") = "" →
      (∀ i, idx ≤ i → i < j → pyStrip (s.getD i "") ≠ "") →
      ∃ m, idx ≤ m ∧ m ≤ j ∧
        readTokensGo s tok tot length false fuel idx acc =
          some (acc ++ segTokens s tok idx m) := by
  intro fuel
  induction fuel with
  | zero =>
    intro idx acc j hfuel hij hjt _hbl _hnb
    omega
  | succ fuel ih =>
    intro idx acc j hfuel hij hjt hbl hnb
    by_cases hlen : length ≤ acc.length
    · refine ⟨idx, le_refl idx, hij, ?_⟩
      simp only [readTokensGo, if_pos hlen, segTokens_self, List.append_nil]
    · have hidx : ¬ tot ≤ idx := by omega
      rcases Nat.eq_or_lt_of_le hij with heq | hlt
      · subst heq
        refine ⟨idx, le_refl idx, le_refl idx, ?_⟩
        simp only [readTokensGo, if_neg hlen, if_neg hidx, if_pos hbl,
          segTokens_self, List.append_nil]
        simp
      · have hnbidx : ¬ pyStrip (s.getD idx "") = "" := hnb idx (le_refl idx) hlt
        obtain ⟨m, h1, h2, h3⟩ :=
          ih (idx + 1) (acc ++ tok (pyStrip (s.getD idx ""))) j (by omega)
            (by omega) hjt hbl (by intro i hi1 hi2; exact hnb i (by omega) hi2)
        refine ⟨m, by omega, h2, ?_⟩
        simp only [readTokensGo, if_neg hlen, if_neg hidx, if_neg hnbidx]
        rw [h3, segTokens_cons s tok (show idx < m by omega), List.append_assoc]
        rfl

/-- Claim C8: a `read_tokens` call with `non_empty = false` never tokenizes a
line at or past the first blank line at or after the start index: if `j` is
that first blank line (and lies inside the corpus), the call returns exactly
the tokens accumulated from whole lines strictly before some `m ≤ j`
(possibly empty, possibly fewer than the target length). -/
theorem c8_false_stops_at_blank (L : SentPairDataLoader) (idx length j : ℕ)
    (hij : idx ≤ j) (hjt : j < L.tot_sentences)
    (hbl : pyStrip (L.sentences.getD j "") = "")
    (hnb : ∀ i, idx ≤ i → i < j → pyStrip (L.sentences.getD i "") ≠ "") :
    ∃ m, idx ≤ m ∧ m ≤ j ∧
      L.read_tokens idx length false =
        some (segTokens L.sentences L.tokenize idx m) := by
  obtain ⟨m, h1, h2, h3⟩ :=
    readTokensGo_false_spec L.sentences L.tokenize L.tot_sentences length
      L.tot_sentences idx [] j (by omega) hij hjt hbl hnb
  rw [List.nil_append] at h3
  exact ⟨m, h1, h2, h3⟩

/-- Witness for C8 on an explicit corpus: in `["x", "", "z"]` the first blank
line is at index 1; a `non_empty = false` read of target length 5 from index
0 returns only tokens of lines before index 1. -/
theorem c8_witness :
    ∃ m, 0 ≤ m ∧ m ≤ 1 ∧
      exLoaderBlank.read_tokens 0 5 false =
        some (segTokens exLoaderBlank.sentences exLoaderBlank.tokenize 0 m) :=
  c8_false_stops_at_blank exLoaderBlank 0 5 1 (by decide) (by decide)
    (by decide)
    (by intro i h1 h2; have h3 : i = 0 := (by omega); rw [h3]; decide)

/-! ### Rational-comparison facts used to evaluate concrete draws
(rational arithmetic does not kernel-reduce, so these are isolated here and
used as rewrite rules). -/

lemma q_one_not_lt_zero : ¬ ((1 : ℚ) < 0) := by norm_num

lemma q_one_not_lt_half : ¬ ((1 : ℚ) < 1/2) := by norm_num

lemma q_zero_lt_half : (0 : ℚ) < 1/2 := by norm_num

/-! ### The sentence-pair sampler -/

/-- When the short-sampling draw does not fire, `len_tokens` is
`int(max_len / 2)` (lines 58-60). -/
lemma slotLen_noshort (L : SentPairDataLoader) (r : SlotRand)
    (h : ¬ r.short_draw < L.short_sampling_prob) :
    slotLen L r = L.max_len / 2 := by
  simp only [slotLen, if_neg h]

lemma slotLen_exA_hit : slotLen exLoaderA exRandHit = 2 := by
  rw [slotLen_noshort exLoaderA exRandHit (by
    simp only [exRandHit, exLoaderA, SentPairDataLoader.init]
    exact q_one_not_lt_zero)]
  rfl

lemma slotLen_exA_a : slotLen exLoaderA exRandA = 2 := by
  rw [slotLen_noshort exLoaderA exRandA (by
    simp only [exRandA, exLoaderA, SentPairDataLoader.init]
    exact q_one_not_lt_zero)]
  rfl

lemma slotLen_exMulti_next : slotLen exLoaderMulti exRandNext = 2 := by
  rw [slotLen_noshort exLoaderMulti exRandNext (by
    simp only [exRandNext, exLoaderMulti, SentPairDataLoader.init]
    exact q_one_not_lt_zero)]
  rfl

/-- Evaluation form of `slot` once the `is_next` draw and the sampled length
are known. -/
lemma slot_eval (L : SentPairDataLoader) (r : SlotRand) (now : ℕ) (b : Bool)
    (n : ℕ) (hb : decide (r.next_draw < 1/2) = b) (hn : slotLen L r = n) :
    slot L r now =
      match L.read_tokens now n true,
          L.read_tokens (slotNextIdx L r now b) n false with
      | some ta, some tb => some (applyPipeline L.pipeline (Instance.raw b ta tb))
      | _, _ => none := by
  simp only [slot, hb, hn]

/-- The slot in which the inclusive `randint(0, tot_sentences)` draw hits the
upper end `tot_sentences` returns `none`. -/
lemma slot_exA_hit : slot exLoaderA exRandHit 0 = none := by
  rw [slot_eval exLoaderA exRandHit 0 false 2
    (decide_eq_false (by
      simp only [exRandHit]
      exact q_one_not_lt_half)) slotLen_exA_hit]
  decide

/-- The all-`exRandA` slot at cursor 0 succeeds and yields a raw pair. -/
lemma slot_exA_a : slot exLoaderA exRandA 0 = some (Instance.raw false ["x", "y"] ["x", "y"]) := by
  rw [slot_eval exLoaderA exRandA 0 false 2
    (decide_eq_false (by
      simp only [exRandA]
      exact q_one_not_lt_half)) slotLen_exA_a]
  decide

/-- A successfully filled batch has exactly the requested number of
instances. -/
lemma fillBatch_some_length (L : SentPairDataLoader) (rands : ℕ → SlotRand) :
    ∀ (n now : ℕ) (b : List Instance),
      fillBatch L rands now n = some b → b.length = n := by
  intro n
  induction n with
  | zero =>
    intro now b h
    simp only [fillBatch, Option.some.injEq] at h
    rw [← h]
    rfl
  | succ n ih =>
    intro now b h
    simp only [fillBatch] at h
    cases hs : slot L (rands now) now with
    | none => rw [hs] at h; exact absurd h (by simp)
    | some inst =>
      rw [hs] at h
      cases hf : fillBatch L rands (now + 1) n with
      | none => rw [hf] at h; exact absurd h (by simp)
      | some b2 =>
        rw [hf] at h
        simp only [Option.map_some', Option.some.injEq] at h
        rw [← h, List.length_cons, ih (now + 1) b2 hf]

/-- `fillBatch` fails exactly when one of its slots fails. -/
lemma fillBatch_none_iff (L : SentPairDataLoader) (rands : ℕ → SlotRand) :
    ∀ (n now : ℕ),
      fillBatch L rands now n = none ↔
        ∃ j, j < n ∧ slot L (rands (now + j)) (now + j) = none := by
  intro n
  induction n with
  | zero =>
    intro now
    simp [fillBatch]
  | succ n ih =>
    intro now
    cases hs : slot L (rands now) now with
    | none =>
      constructor
      · intro _
        exact ⟨0, by omega, by simpa using hs⟩
      · intro _
        simp only [fillBatch, hs]
    | some inst =>
      have hstep : fillBatch L rands now (n + 1) =
          (fillBatch L rands (now + 1) n).map (fun b => inst :: b) := by
        simp only [fillBatch, hs]
      rw [hstep, Option.map_eq_none', ih (now + 1)]
      constructor
      · rintro ⟨j, hj, hsl⟩
        refine ⟨j + 1, by omega, ?_⟩
        have h2 : now + 1 + j = now + (j + 1) := by omega
        rw [h2] at hsl; exact hsl
      · rintro ⟨j, hj, hsl⟩
        cases j with
        | zero => rw [Nat.add_zero] at hsl; rw [hsl] at hs; exact absurd hs (by simp)
        | succ j =>
          refine ⟨j, by omega, ?_⟩
          have h2 : now + 1 + j = now + (j + 1) := by omega
          rw [h2]; exact hsl

/-- A slot fails exactly when one of its two reads returns the exhausted
sentinel. -/
lemma slot_none_iff (L : SentPairDataLoader) (r : SlotRand) (k : ℕ) :
    slot L r k = none ↔
      (L.read_tokens k (slotLen L r) true = none ∨
        L.read_tokens (slotNextIdx L r k (decide (r.next_draw < 1/2)))
          (slotLen L r) false = none) := by
  simp only [slot]
  cases h1 : L.read_tokens k (slotLen L r) true <;>
    cases h2 : L.read_tokens (slotNextIdx L r k (decide (r.next_draw < 1/2)))
      (slotLen L r) false <;> simp

/-- Claim C4: the batch stream is total (no fault is modelled or needed),
every yielded batch has exactly `batch_size` instances (a partially filled
batch is never emitted), the stream ends exactly when the current batch
fails, a batch fails exactly when one of its slots fails, and a slot fails
exactly when its `tokens_a` or `tokens_b` read returns the exhausted
sentinel. -/
theorem c4_batches (L : SentPairDataLoader) (rands : ℕ → SlotRand)
    (now fuel : ℕ) :
    (∀ b ∈ runBatches L rands now fuel, b.length = L.batch_size) ∧
    (runBatches L rands now (fuel + 1) = [] ↔
      fillBatch L rands now L.batch_size = none) ∧
    (fillBatch L rands now L.batch_size = none ↔
      ∃ j, j < L.batch_size ∧ slot L (rands (now + j)) (now + j) = none) ∧
    (∀ (r : SlotRand) (k : ℕ), slot L r k = none ↔
      (L.read_tokens k (slotLen L r) true = none ∨
        L.read_tokens (slotNextIdx L r k (decide (r.next_draw < 1/2)))
          (slotLen L r) false = none)) := by
  refine ⟨?_, ?_, fillBatch_none_iff L rands L.batch_size now,
    fun r k => slot_none_iff L r k⟩
  · induction fuel generalizing now with
    | zero => intro b hb; exact absurd hb (by simp [runBatches])
    | succ fuel ih =>
      intro b hb
      simp only [runBatches] at hb
      cases hf : fillBatch L rands now L.batch_size with
      | none => rw [hf] at hb; exact absurd hb (by simp)
      | some b0 =>
        rw [hf] at hb
        rcases List.mem_cons.mp hb with h | h
        · rw [h]; exact fillBatch_some_length L rands L.batch_size now b0 hf
        · exact ih (now + L.batch_size) b h
  · simp only [runBatches]
    cases hf : fillBatch L rands now L.batch_size with
    | none => simp
    | some b0 => simp

/-- Witness for C4 on an explicit corpus and draw stream: the single batch
yielded by the 3-line corpus with `batch_size = 1` has length exactly
`batch_size`. -/
theorem c4_witness :
    ([Instance.raw false ["x", "y"] ["x", "y"]] : List Instance).length =
      exLoaderA.batch_size := by
  have hrun : runBatches exLoaderA exRandsA 0 1 =
      [[Instance.raw false ["x", "y"] ["x", "y"]]] := by
    simp only [runBatches, fillBatch, exRandsA, slot_exA_a, Option.map_some']
  exact (c4_batches exLoaderA exRandsA 0 1).1
    [Instance.raw false ["x", "y"] ["x", "y"]]
    (by rw [hrun]; exact List.mem_cons_self _ _)

/-- Claim C3 (the code contradicts it): at line 65 the random branch draws
`randint(0, tot_sentences)`, whose inclusive range contains the out-of-range
index `tot_sentences` itself.  On the 3-line corpus, the draw 3 makes
`next_idx = 3 = tot_sentences`; the `tokens_b` read then returns the
exhausted sentinel and the whole stream terminates (lines 69-70) even though
`tokens_a` was read successfully and the corpus is not exhausted.  So
`next_idx` is neither confined to `[0, tot_sentences - 1]` nor unable to end
the stream by itself. -/
theorem c3_random_idx_ends_stream :
    slotNextIdx exLoaderA exRandHit 0 false = exLoaderA.tot_sentences ∧
    exLoaderA.tot_sentences = 3 ∧
    exLoaderA.read_tokens 0 (slotLen exLoaderA exRandHit) true = some ["x", "y"] ∧
    exLoaderA.read_tokens 3 (slotLen exLoaderA exRandHit) false = none ∧
    slot exLoaderA exRandHit 0 = none ∧
    ∀ fuel, runBatches exLoaderA exRandsHit 0 fuel = [] := by
  have hfill : fillBatch exLoaderA exRandsHit 0 exLoaderA.batch_size = none := by
    show fillBatch exLoaderA exRandsHit 0 1 = none
    simp only [fillBatch, exRandsHit, slot_exA_hit]
  refine ⟨by decide, by decide, ?_, ?_, slot_exA_hit, ?_⟩
  · rw [slotLen_exA_hit]; decide
  · rw [slotLen_exA_hit]; decide
  · intro fuel
    cases fuel with
    | zero => rfl
    | succ fuel => simp only [runBatches, hfill]

/-- Claim C5 (as stated, the code contradicts it): in the `is_next = true`
branch the second read starts at `now + 1` (line 65), the line after the
*first* line of `tokens_a`'s read, not the line after `tokens_a`'s read
region.  On the corpus `["x", "yy", "z"]` with target length 2, the
`tokens_a` read from line 0 consumes lines 0 and 1 (final `idx` is 2), yet
`next_idx` is 1, inside the read region rather than immediately after it. -/
theorem c5_counterexample :
    exLoaderMulti.read_tokens_final_idx 0 2 true = some (["x", "yy", "yy"], 2) ∧
    exLoaderMulti.read_tokens 0 2 true = some ["x", "yy", "yy"] ∧
    decide (exRandNext.next_draw < 1/2) = true ∧
    slotLen exLoaderMulti exRandNext = 2 ∧
    slotNextIdx exLoaderMulti exRandNext 0 true = 1 ∧
    (1 : ℕ) ≠ 2 := by
  refine ⟨by decide, by decide, ?_, slotLen_exMulti_next, by decide, by decide⟩
  exact decide_eq_true (by
    simp only [exRandNext]
    exact q_zero_lt_half)

/-- Claim C5 amended: when `is_next` is drawn true, `tokens_b` is read
starting at `now + 1`, the line immediately following the slot's starting
line (which coincides with the line after `tokens_a`'s read region exactly
when that read consumed one line and never restarted). -/
theorem c5_next_start_amended (L : SentPairDataLoader) (r : SlotRand)
    (now : ℕ) (h : r.next_draw < 1/2) :
    slotNextIdx L r now true = now + 1 ∧
    slot L r now =
      match L.read_tokens now (slotLen L r) true,
          L.read_tokens (now + 1) (slotLen L r) false with
      | some ta, some tb =>
          some (applyPipeline L.pipeline (Instance.raw true ta tb))
      | _, _ => none := by
  constructor
  · rfl
  · rw [slot_eval L r now true (slotLen L r) (decide_eq_true h) rfl]
    rw [show slotNextIdx L r now true = now + 1 from rfl]

/-- Witness for the amended C5 on an explicit corpus: with `is_next` drawn
true at cursor 0, the second read starts at line 1. -/
theorem c5_witness :
    slotNextIdx exLoaderMulti exRandNext 0 true = 0 + 1 ∧
    slot exLoaderMulti exRandNext 0 =
      match exLoaderMulti.read_tokens 0 (slotLen exLoaderMulti exRandNext) true,
          exLoaderMulti.read_tokens (0 + 1) (slotLen exLoaderMulti exRandNext) false with
      | some ta, some tb =>
          some (applyPipeline exLoaderMulti.pipeline (Instance.raw true ta tb))
      | _, _ => none :=
  c5_next_start_amended exLoaderMulti exRandNext 0 (by
    simp only [exRandNext]
    exact q_zero_lt_half)

/-! ### Truncation and the masking loop -/

/-- With enough fuel (one unit per removed token), joint truncation brings
the total length within the budget. -/
lemma truncateGo_length_le :
    ∀ (fuel : ℕ) (a b : List String) (m : ℕ),
      a.length + b.length ≤ m + fuel →
      (truncateGo fuel (a, b) m).1.length + (truncateGo fuel (a, b) m).2.length ≤ m := by
  intro fuel
  induction fuel with
  | zero =>
    intro a b m h
    simp only [truncateGo]
    omega
  | succ fuel ih =>
    intro a b m h
    simp only [truncateGo]
    split
    · rename_i hc
      simpa using hc
    · split
      · apply ih
        rw [List.length_dropLast]
        omega
      · apply ih
        rw [List.length_dropLast]
        rename_i hc hba
        omega

/-- `truncate_tokens_pair` brings the total length within the budget. -/
lemma truncate_tokens_pair_le (a b : List String) (m : ℕ) :
    (truncate_tokens_pair a b m).1.length + (truncate_tokens_pair a b m).2.length ≤ m :=
  truncateGo_length_le (a.length + b.length) a b m (by omega)

/-- Length of the assembled `[CLS] + a + [SEP] + b + [SEP]` sequence. -/
lemma assembled_length (p : Preprocess4Pretrain) (ta tb : List String) :
    (assembled p ta tb).length =
      (truncPair p ta tb).1.length + (truncPair p ta tb).2.length + 3 := by
  simp only [assembled, List.length_append, List.length_cons, List.length_nil]
  omega

/-- One masking step never changes the number of tokens. -/
lemma maskStep_length (v : List String) (d : ℚ × ℚ × ℕ) (t : List String)
    (pos : ℕ) : (maskStep v d t pos).length = t.length := by
  simp only [maskStep]
  split
  · rw [List.length_set]
  · split
    · rw [List.length_set]
    · rfl

/-- One masking step leaves every position other than its own unchanged. -/
lemma maskStep_getD_ne (v : List String) (d : ℚ × ℚ × ℕ) (t : List String)
    (pos q : ℕ) (dflt : String) (h : q ≠ pos) :
    (maskStep v d t pos).getD q dflt = t.getD q dflt := by
  simp only [maskStep]
  split
  · exact getD_set_ne t _ _ (Ne.symm h)
  · split
    · exact getD_set_ne t _ _ (Ne.symm h)
    · rfl

/-- At its own position, one masking step writes exactly the outcome of its
draws applied to the token currently there. -/
lemma maskStep_getD_self (v : List String) (d : ℚ × ℚ × ℕ) (t : List String)
    (pos : ℕ) (dflt : String) (h : pos < t.length) :
    (maskStep v d t pos).getD pos dflt = maskOutcome v d (t.getD pos dflt) := by
  simp only [maskStep, maskOutcome]
  split
  · exact getD_set_self t pos _ dflt h
  · split
    · exact getD_set_self t pos _ dflt h
    · rfl

/-- The masking loop never changes the number of tokens. -/
lemma maskLoop_fst_length (v : List String) (dr : ℕ → ℚ × ℚ × ℕ) :
    ∀ (poss : List ℕ) (i : ℕ) (t : List String),
      (maskLoop v dr poss i t).1.length = t.length := by
  intro poss
  induction poss with
  | nil => intro i t; rfl
  | cons pos rest ih =>
    intro i t
    simp only [maskLoop]
    rw [ih, maskStep_length]

/-- `masked_pos` records exactly the processed positions, in order. -/
lemma maskLoop_masked_pos (v : List String) (dr : ℕ → ℚ × ℚ × ℕ) :
    ∀ (poss : List ℕ) (i : ℕ) (t : List String),
      (maskLoop v dr poss i t).2.2 = poss := by
  intro poss
  induction poss with
  | nil => intro i t; rfl
  | cons pos rest ih =>
    intro i t
    simp only [maskLoop]
    rw [ih]

/-- `masked_tokens` has one entry per processed position. -/
lemma maskLoop_masked_tokens_length (v : List String) (dr : ℕ → ℚ × ℚ × ℕ) :
    ∀ (poss : List ℕ) (i : ℕ) (t : List String),
      (maskLoop v dr poss i t).2.1.length = poss.length := by
  intro poss
  induction poss with
  | nil => intro i t; rfl
  | cons pos rest ih =>
    intro i t
    simp only [maskLoop]
    rw [List.length_cons, ih, List.length_cons]

/-- The masking loop leaves every position outside its position list
unchanged. -/
lemma maskLoop_getD_not_mem (v : List String) (dr : ℕ → ℚ × ℚ × ℕ) :
    ∀ (poss : List ℕ) (i : ℕ) (t : List String) (q : ℕ) (dflt : String),
      q ∉ poss → (maskLoop v dr poss i t).1.getD q dflt = t.getD q dflt := by
  intro poss
  induction poss with
  | nil => intro i t q dflt _; rfl
  | cons pos rest ih =>
    intro i t q dflt hq
    simp only [maskLoop]
    rw [ih (i + 1) (maskStep v (dr i) t pos) q dflt
      (fun h => hq (List.mem_cons_of_mem _ h))]
    exact maskStep_getD_ne v (dr i) t pos q dflt
      (fun he => hq (by rw [he]; exact List.mem_cons_self _ _))

/-- Full behaviour of the masking loop on distinct in-range positions:
`masked_pos` is the position list, `masked_tokens` records the original
(pre-loop) token of each position, and the final token at the `k`-th
processed position is the outcome of the `k`-th draws applied to its
original token. -/
lemma maskLoop_spec (v : List String) (dr : ℕ → ℚ × ℚ × ℕ) :
    ∀ (poss : List ℕ) (i : ℕ) (t : List String), poss.Nodup →
      (∀ q ∈ poss, q < t.length) →
      (maskLoop v dr poss i t).2.2 = poss ∧
      (maskLoop v dr poss i t).2.1 = poss.map (fun q => t.getD q "") ∧
      ∀ k (hk : k < poss.length),
        (maskLoop v dr poss i t).1.getD (poss.get ⟨k, hk⟩) "" =
          maskOutcome v (dr (i + k)) (t.getD (poss.get ⟨k, hk⟩) "") := by
  intro poss
  induction poss with
  | nil =>
    intro i t _ _
    exact ⟨rfl, rfl, fun k hk => absurd hk (by simp)⟩
  | cons pos rest ih =>
    intro i t hnd hb
    obtain ⟨hpos, hrest⟩ := List.nodup_cons.mp hnd
    have hlen2 : ∀ q ∈ rest, q < (maskStep v (dr i) t pos).length := by
      intro q hq
      rw [maskStep_length]
      exact hb q (List.mem_cons_of_mem _ hq)
    obtain ⟨ih1, ih2, ih3⟩ := ih (i + 1) (maskStep v (dr i) t pos) hrest hlen2
    refine ⟨?_, ?_, ?_⟩
    · simp only [maskLoop]
      rw [ih1]
    · simp only [maskLoop]
      rw [ih2, List.map_cons]
      congr 1
      apply List.map_congr_left
      intro q hq
      exact maskStep_getD_ne v (dr i) t pos q "" (fun he => hpos (he ▸ hq))
    · intro k hk
      simp only [maskLoop]
      cases k with
      | zero =>
        rw [show (pos :: rest).get ⟨0, hk⟩ = pos from rfl]
        rw [maskLoop_getD_not_mem v dr rest (i + 1) (maskStep v (dr i) t pos) pos "" hpos]
        rw [maskStep_getD_self v (dr i) t pos "" (hb pos (List.mem_cons_self _ _)),
          Nat.add_zero]
      | succ k =>
        have hk2 : k < rest.length := by simpa using hk
        rw [show (pos :: rest).get ⟨k + 1, hk⟩ = rest.get ⟨k, hk2⟩ from rfl]
        rw [ih3 k hk2]
        rw [show i + 1 + k = i + (k + 1) from by omega]
        congr 1
        have hqmem : rest.get ⟨k, hk2⟩ ∈ rest := List.get_mem _ _ hk2
        exact maskStep_getD_ne v (dr i) t pos _ "" (fun he => hpos (he ▸ hqmem))

/-! ### Rational evaluation facts for the transformer examples -/

lemma q_zero_lt_eight_tenths : (0 : ℚ) < 8/10 := by norm_num

lemma q_nine_tenths_not_lt_eight_tenths : ¬ ((9/10 : ℚ) < 8/10) := by norm_num

lemma q_three_quarters_not_lt_half : ¬ ((3/4 : ℚ) < 1/2) := by norm_num

/-- Python `round` is the identity on integers. -/
lemma pyRound_natCast (n : ℕ) : pyRound ((n : ℕ) : ℚ) = (n : ℤ) := by
  have hf : ⌊((n : ℕ) : ℚ)⌋ = (n : ℤ) := Int.floor_natCast n
  simp only [pyRound, hf]
  rw [if_pos (by push_cast; norm_num)]

lemma pyRound_nine_tenths : pyRound (9/10 : ℚ) = 1 := by
  have hf : ⌊(9/10 : ℚ)⌋ = 0 := by
    rw [Int.floor_eq_zero_iff, Set.mem_Ico]
    constructor <;> norm_num
  simp only [pyRound, hf]
  rw [if_neg (by norm_num), if_pos (by norm_num)]
  norm_num

lemma exPre6_nPred : exPre6.nPred ["[CLS]", "a", "[SEP]", "b", "[SEP]"] = 5 := by
  have h : ((["[CLS]", "a", "[SEP]", "b", "[SEP]"].length : ℕ) : ℚ) *
      exPre6.mask_prob = ((5 : ℕ) : ℚ) := by
    show ((5 : ℕ) : ℚ) * (1 : ℚ) = ((5 : ℕ) : ℚ)
    rw [mul_one]
  simp only [Preprocess4Pretrain.nPred, h, pyRound_natCast]
  decide

lemma exPre1_nPred : exPre1.nPred ["[CLS]", "hello", "[SEP]", "[SEP]"] = 4 := by
  have h : ((["[CLS]", "hello", "[SEP]", "[SEP]"].length : ℕ) : ℚ) *
      exPre1.mask_prob = ((4 : ℕ) : ℚ) := by
    show ((4 : ℕ) : ℚ) * (1 : ℚ) = ((4 : ℕ) : ℚ)
    rw [mul_one]
  simp only [Preprocess4Pretrain.nPred, h, pyRound_natCast]
  decide

lemma exPreW_nPred : exPreW.nPred ["[CLS]", "a", "b", "[SEP]", "c", "[SEP]"] = 1 := by
  have h : ((["[CLS]", "a", "b", "[SEP]", "c", "[SEP]"].length : ℕ) : ℚ) *
      exPreW.mask_prob = (9/10 : ℚ) := by
    show ((6 : ℕ) : ℚ) * (15/100 : ℚ) = 9/10
    push_cast
    norm_num
  simp only [Preprocess4Pretrain.nPred, h, pyRound_nine_tenths]
  decide

lemma maskOutcome_exDraws0 : maskOutcome exVocab (exDraws 0) "a" = "[MASK]" := by
  show maskOutcome exVocab (0, 0, 0) "a" = "[MASK]"
  simp only [maskOutcome]
  rw [if_pos q_zero_lt_eight_tenths]

lemma maskOutcome_exDraws1 : maskOutcome exVocab (exDraws 1) "b" = "b" := by
  show maskOutcome exVocab (9/10, 3/4, 0) "b" = "b"
  simp only [maskOutcome]
  rw [if_neg q_nine_tenths_not_lt_eight_tenths,
    if_neg q_three_quarters_not_lt_half]

/-! ### Claims about `Preprocess4Pretrain.__call__` -/

/-- Claim C7: for each selected masked position the original token and the
position are recorded before any mutation, and the written token is a
function of the position's two fresh draws: first draw below 0.8 gives
`[MASK]`; otherwise second draw below 0.5 gives a uniformly drawn vocabulary
word; otherwise the token is left unchanged.  `poss` is the candidate prefix
`cand_pos[:n_pred]` of lines 121-127: a list of distinct in-range positions
(the shuffle of line 120 permutes the distinct `enumerate` positions). -/
theorem c7_mask_outcomes (vocab : List String) (draws : ℕ → ℚ × ℚ × ℕ)
    (poss : List ℕ) (tokens : List String) (hnd : poss.Nodup)
    (hb : ∀ q ∈ poss, q < tokens.length) :
    (maskLoop vocab draws poss 0 tokens).2.2 = poss ∧
    (maskLoop vocab draws poss 0 tokens).2.1 =
      poss.map (fun q => tokens.getD q "") ∧
    ∀ k (hk : k < poss.length),
      (maskLoop vocab draws poss 0 tokens).1.getD (poss.get ⟨k, hk⟩) "" =
        maskOutcome vocab (draws k) (tokens.getD (poss.get ⟨k, hk⟩) "") := by
  obtain ⟨h1, h2, h3⟩ := maskLoop_spec vocab draws poss 0 tokens hnd hb
  refine ⟨h1, h2, fun k hk => ?_⟩
  have h := h3 k hk
  rwa [Nat.zero_add] at h

/-- Witness for C7 on explicit draws: positions 1 and 2 of
`["[CLS]", "a", "b", "[SEP]"]` are recorded as `["a", "b"]` at `[1, 2]`;
position 1 (first draw 0) becomes `[MASK]`, position 2 (draws 0.9 and 0.75)
keeps its token. -/
theorem c7_witness :
    (maskLoop exVocab exDraws [1, 2] 0 exTokens).2.2 = [1, 2] ∧
    (maskLoop exVocab exDraws [1, 2] 0 exTokens).2.1 = ["a", "b"] ∧
    (maskLoop exVocab exDraws [1, 2] 0 exTokens).1.getD 1 "" = "[MASK]" ∧
    (maskLoop exVocab exDraws [1, 2] 0 exTokens).1.getD 2 "" = "b" := by
  obtain ⟨h1, h2, h3⟩ :=
    c7_mask_outcomes exVocab exDraws [1, 2] exTokens (by decide) (by decide)
  refine ⟨h1, ?_, ?_, ?_⟩
  · rw [h2]; rfl
  · exact (h3 0 (by decide)).trans maskOutcome_exDraws0
  · exact (h3 1 (by decide)).trans maskOutcome_exDraws1

/-- Claim C1 amended: the three input-side fields always have length
`max_len`, and the three masked-side fields have length `max_pred` provided
the assembled sequence has at least `n_pred` maskable (non-`[CLS]`/`[SEP]`)
positions.  (Without that proviso the masked-side fields are shorter than
`max_pred`, see the counterexample: the padding of lines 142-146 is computed
against `n_pred`, not against the number of positions actually masked.) -/
theorem c1_fixed_lengths (p : Preprocess4Pretrain) (rnd : MaskRand)
    (inst : Bool × List String × List String)
    (hml : 3 < p.max_len) (_hmp : 0 < p.max_pred)
    (hsh : (rnd.shuffle (candPos (assembled p inst.2.1 inst.2.2))).Perm
      (candPos (assembled p inst.2.1 inst.2.2)))
    (hcand : p.nPred (assembled p inst.2.1 inst.2.2) ≤
      (candPos (assembled p inst.2.1 inst.2.2)).length) :
    (p.call rnd inst).input_ids.length = p.max_len ∧
    (p.call rnd inst).segment_ids.length = p.max_len ∧
    (p.call rnd inst).input_mask.length = p.max_len ∧
    (p.call rnd inst).masked_ids.length = p.max_pred ∧
    (p.call rnd inst).masked_pos.length = p.max_pred ∧
    (p.call rnd inst).masked_weights.length = p.max_pred := by
  have htr : (truncPair p inst.2.1 inst.2.2).1.length +
      (truncPair p inst.2.1 inst.2.2).2.length ≤ p.max_len - 3 :=
    truncate_tokens_pair_le inst.2.1 inst.2.2 (p.max_len - 3)
  have hAlen := assembled_length p inst.2.1 inst.2.2
  have hAle : (assembled p inst.2.1 inst.2.2).length ≤ p.max_len := by omega
  have hnple : p.nPred (assembled p inst.2.1 inst.2.2) ≤ p.max_pred :=
    min_le_left _ _
  have hmtl : (maskLoop p.vocab_words rnd.draws
      ((rnd.shuffle (candPos (assembled p inst.2.1 inst.2.2))).take
        (p.nPred (assembled p inst.2.1 inst.2.2))) 0
      (assembled p inst.2.1 inst.2.2)).2.1.length =
      p.nPred (assembled p inst.2.1 inst.2.2) := by
    rw [maskLoop_masked_tokens_length, List.length_take, hsh.length_eq]
    omega
  have hmpl : (maskLoop p.vocab_words rnd.draws
      ((rnd.shuffle (candPos (assembled p inst.2.1 inst.2.2))).take
        (p.nPred (assembled p inst.2.1 inst.2.2))) 0
      (assembled p inst.2.1 inst.2.2)).2.2.length =
      p.nPred (assembled p inst.2.1 inst.2.2) := by
    rw [maskLoop_masked_pos, List.length_take, hsh.length_eq]
    omega
  have hftl : (maskLoop p.vocab_words rnd.draws
      ((rnd.shuffle (candPos (assembled p inst.2.1 inst.2.2))).take
        (p.nPred (assembled p inst.2.1 inst.2.2))) 0
      (assembled p inst.2.1 inst.2.2)).1.length =
      (assembled p inst.2.1 inst.2.2).length :=
    maskLoop_fst_length p.vocab_words rnd.draws _ 0 _
  simp only [Preprocess4Pretrain.call, List.length_append,
    List.length_replicate, List.length_map, hftl, hmtl, hmpl]
  refine ⟨by omega, by omega, by omega, ?_, ?_, ?_⟩ <;> split <;> omega

/-- Claim C1 as stated is violated by the code: with `max_len = 8`,
`max_pred = 4`, `mask_prob = 1` and raw instance `(false, ["hello"], [])`,
the assembled sequence has 4 tokens, so `n_pred = 4`, but only one position
is maskable; the masked-side padding (computed against `n_pred`) then leaves
`masked_ids` with length 1 instead of `max_pred = 4`. -/
theorem c1_counterexample :
    (exPre1.call exMaskRandKeep (false, ["hello"], [])).masked_ids.length = 1 ∧
    exPre1.max_pred = 4 ∧ 3 < exPre1.max_len ∧ 0 < exPre1.max_pred ∧
    (1 : ℕ) ≠ 4 := by
  have hass : assembled exPre1 ["hello"] [] =
      ["[CLS]", "hello", "[SEP]", "[SEP]"] := by decide
  refine ⟨?_, rfl, by decide, by decide, by decide⟩
  simp only [Preprocess4Pretrain.call, List.length_append,
    List.length_replicate, List.length_map]
  rw [maskLoop_masked_tokens_length, hass, exPre1_nPred]
  decide

/-- Witness for the amended C1: a configuration and instance with enough
maskable positions, where all six lengths come out at their declared
widths. -/
theorem c1_witness :
    (exPreW.call exMaskRandKeep (true, ["a", "b"], ["c"])).input_ids.length =
      exPreW.max_len ∧
    (exPreW.call exMaskRandKeep (true, ["a", "b"], ["c"])).segment_ids.length =
      exPreW.max_len ∧
    (exPreW.call exMaskRandKeep (true, ["a", "b"], ["c"])).input_mask.length =
      exPreW.max_len ∧
    (exPreW.call exMaskRandKeep (true, ["a", "b"], ["c"])).masked_ids.length =
      exPreW.max_pred ∧
    (exPreW.call exMaskRandKeep (true, ["a", "b"], ["c"])).masked_pos.length =
      exPreW.max_pred ∧
    (exPreW.call exMaskRandKeep (true, ["a", "b"], ["c"])).masked_weights.length =
      exPreW.max_pred := by
  apply c1_fixed_lengths exPreW exMaskRandKeep (true, ["a", "b"], ["c"])
    (by decide) (by decide) (List.Perm.refl _)
  show exPreW.nPred (assembled exPreW ["a", "b"] ["c"]) ≤
    (candPos (assembled exPreW ["a", "b"] ["c"])).length
  rw [show assembled exPreW ["a", "b"] ["c"] =
    ["[CLS]", "a", "b", "[SEP]", "c", "[SEP]"] from by decide]
  rw [exPreW_nPred]
  decide

/-- Claim C6 amended: `sum(masked_weights)` equals
`min(n_pred, number of maskable positions)`; this equals `n_pred` (the
claim's statement) exactly when the assembled sequence has at least `n_pred`
maskable positions, which non-degeneracy alone does not guarantee (see the
counterexample). -/
theorem c6_weights_sum (p : Preprocess4Pretrain) (rnd : MaskRand)
    (inst : Bool × List String × List String)
    (hsh : (rnd.shuffle (candPos (assembled p inst.2.1 inst.2.2))).Perm
      (candPos (assembled p inst.2.1 inst.2.2))) :
    (p.call rnd inst).masked_weights.sum =
      min (p.nPred (assembled p inst.2.1 inst.2.2))
        (candPos (assembled p inst.2.1 inst.2.2)).length := by
  simp only [Preprocess4Pretrain.call, List.sum_append, List.sum_replicate,
    smul_eq_mul, mul_one, mul_zero, add_zero]
  rw [maskLoop_masked_tokens_length, List.length_take, hsh.length_eq]

/-- Claim C6 as stated is violated by the code: with `max_len = 8`,
`max_pred = 5`, `mask_prob = 1` and the non-degenerate instance
`(false, ["a"], ["b"])` (both spans non-empty after truncation),
`n_pred = min(5, max(1, round(5*1))) = 5` but only two positions are
maskable, so `sum(masked_weights) = 2 ≠ n_pred`. -/
theorem c6_counterexample :
    (exPre6.call exMaskRandKeep (false, ["a"], ["b"])).masked_weights.sum = 2 ∧
    exPre6.nPred (assembled exPre6 ["a"] ["b"]) = 5 ∧
    (truncPair exPre6 ["a"] ["b"]).1 ≠ [] ∧
    (truncPair exPre6 ["a"] ["b"]).2 ≠ [] ∧
    (2 : ℕ) ≠ 5 := by
  have hass : assembled exPre6 ["a"] ["b"] =
      ["[CLS]", "a", "[SEP]", "b", "[SEP]"] := by decide
  refine ⟨?_, ?_, by decide, by decide, by decide⟩
  · simp only [Preprocess4Pretrain.call, List.sum_append, List.sum_replicate,
      smul_eq_mul, mul_one, mul_zero, add_zero]
    rw [maskLoop_masked_tokens_length, hass, exPre6_nPred]
    decide
  · rw [hass]
    exact exPre6_nPred

/-- Witness for the amended C6 at an explicit configuration and instance. -/
theorem c6_witness :
    (exPre6.call exMaskRandKeep (false, ["a"], ["b"])).masked_weights.sum =
      min (exPre6.nPred (assembled exPre6 ["a"] ["b"]))
        (candPos (assembled exPre6 ["a"] ["b"])).length :=
  c6_weights_sum exPre6 exMaskRandKeep (false, ["a"], ["b"]) (List.Perm.refl _)

/-- Claim C9 amended: neither constructor validates anything; any
configuration, sensible or not, is accepted and stored verbatim, so
misconfigurations are not detected at construction time. -/
theorem c9_constructors_store_unvalidated (sentences : List String)
    (batch_size : ℕ) (tokenize : String → List String) (max_len : ℕ)
    (ssp : ℚ) (pipeline : List (Instance → Instance)) (max_pred : ℕ)
    (mask_prob : ℚ) (vocab : List String) (indexer : String → ℤ)
    (max_len2 : ℕ) :
    SentPairDataLoader.init sentences batch_size tokenize max_len ssp pipeline =
      { sentences := sentences, tot_sentences := sentences.length,
        tokenize := tokenize, max_len := max_len, short_sampling_prob := ssp,
        pipeline := pipeline, batch_size := batch_size } ∧
    Preprocess4Pretrain.init max_pred mask_prob vocab indexer max_len2 =
      { max_pred := max_pred, mask_prob := mask_prob, vocab_words := vocab,
        indexer := indexer, max_len := max_len2 } :=
  ⟨rfl, rfl⟩

/-- Claim C9 as stated is violated by the code: constructing with
`max_pred = 10 > 4 = max_len`, or with `batch_size = 0`, succeeds and stores
the invalid values; no configuration error is raised at construction time. -/
theorem c9_counterexample :
    (Preprocess4Pretrain.init 10 (15/100) [] exIndexer 4).max_pred = 10 ∧
    (Preprocess4Pretrain.init 10 (15/100) [] exIndexer 4).max_len = 4 ∧
    10 > 4 ∧
    (SentPairDataLoader.init ["x"] 0 idTok 2 0 []).batch_size = 0 :=
  ⟨rfl, rfl, by decide, rfl⟩

end PytorchicBert
